import Mathlib

/-!
Verification of the easy_proxies Node Registry and Selection Engine.

The definitions below are a shallow embedding of the Go sources:
  * `internal/store`      (subscriptions, node states, latency classifier,
                           listing/grouping operations, persistence),
  * `internal/proxypool`  (selection engine: filters, fallback cascade,
                           sequential/random/latency-first/weighted modes),
  * `internal/node`       (region classifier),
  * `internal/monitor`    (HTTP handler latency classifier).

Go maps are modelled as association lists (iteration order of a Go map is
unspecified; every statement proved about map-valued results is
membership-based, or quantifies over the possible outcomes where the order
is observable, as in the region classifier).  Machine integers (`int64`,
`int`) are modelled as `Int`; the sequential rotation counter, a
monotonically increasing `atomic.Int64` starting at 0, is modelled as `Nat`.
Random draws (`rand.Intn n`) are modelled by an arbitrary `Nat` argument
reduced modulo `n`.  Disk persistence is modelled by a `disk` field holding
the last document written by `save`; I/O faults are not modelled (every
`save` succeeds).  `strings.ToLower` is modelled by ASCII lowercasing,
which agrees with Go on every string considered here (ASCII letters, CJK
ideographs and emoji are either ASCII-cased or caseless in both).
-/

namespace EasyProxies

/-- Node status, from `store.NodeStatus` (`enabled` / `disabled` / `blacklisted`). -/
inductive NodeStatus
  | enabled
  | disabled
  | blacklisted
deriving DecidableEq, Repr

/-- Latency tier, from `store.LatencyLevel` (`low` / `medium` / `high` / `unknown`). -/
inductive LatencyLevel
  | low
  | medium
  | high
  | unknown
deriving DecidableEq, Repr

/-- Latency thresholds, from `store.LatencyConfig`. -/
structure LatencyConfig where
  lowThreshold : Int
  mediumThreshold : Int
deriving DecidableEq, Repr

/-- A subscription record, from `store.Subscription`.
Timestamps are abstract ticks (`Nat`). -/
structure Subscription where
  id : String
  name : String
  url : String
  enabled : Bool
  refreshInterval : String
  lastRefreshAt : Nat
  nodeCount : Int
  lastError : String
  createdAt : Nat
  updatedAt : Nat
deriving DecidableEq, Repr

/-- A node record, from `store.EnhancedNode`. -/
structure EnhancedNode where
  name : String
  uri : String
  port : Nat
  subscriptionID : String
  subscriptionName : String
  region : String
  regionName : String
  latency : Int
  latencyLevel : LatencyLevel
  status : NodeStatus
  available : Bool
  lastCheckAt : Nat
  failureCount : Int
  successCount : Int
deriving DecidableEq, Repr

/-- The document written to `store.json` by `Store.save` (`storeData`). -/
structure StoreData where
  subscriptions : List (String × Subscription)
  nodeStates : List (String × EnhancedNode)
  latencyConfig : LatencyConfig
deriving DecidableEq, Repr

/-- The registry state, from `store.Store`.  The two Go maps are association
lists; `disk` holds the last persisted document (`none` before any save). -/
structure Store where
  dataDir : String
  subscriptions : List (String × Subscription)
  nodeStates : List (String × EnhancedNode)
  latencyConfig : LatencyConfig
  disk : Option StoreData
deriving DecidableEq, Repr

/-- Registry error values (`ErrSubscriptionNotFound`, `ErrNodeNotFound`). -/
inductive StoreError
  | subscriptionNotFound
  | nodeNotFound
deriving DecidableEq, Repr

/-- Map assignment `m[k] = v`: replace the entry when the key is present,
append otherwise (one entry per key is preserved). -/
def assocInsert {β : Type} (k : String) (v : β) (l : List (String × β)) :
    List (String × β) :=
  if l.any (fun p => p.1 == k) then
    l.map (fun p => if p.1 == k then (k, v) else p)
  else
    l ++ [(k, v)]

/-- `Store.save`: when a data directory is configured, write the current
document to disk (always succeeds in this model). -/
def Store.save (s : Store) : Store :=
  if s.dataDir = "" then s
  else { s with disk := some ⟨s.subscriptions, s.nodeStates, s.latencyConfig⟩ }

/-- `Store.CalculateLatencyLevel`: classify a latency against the store's
current thresholds. -/
def Store.CalculateLatencyLevel (s : Store) (latencyMs : Int) : LatencyLevel :=
  if latencyMs < 0 then .unknown
  else if latencyMs ≤ s.latencyConfig.lowThreshold then .low
  else if latencyMs ≤ s.latencyConfig.mediumThreshold then .medium
  else .high

/-- `NewStore` with no data directory: empty maps, default thresholds
(100 ms, 300 ms), nothing loaded from disk. -/
def NewStore : Store :=
  { dataDir := ""
    subscriptions := []
    nodeStates := []
    latencyConfig := { lowThreshold := 100, mediumThreshold := 300 }
    disk := none }

/-- `ProxyPoolHandler.classifyLatency` (internal/monitor/proxy_api.go):
the HTTP handler's own latency classifier, using fixed boundaries. -/
def classifyLatency (ms : Int) : LatencyLevel :=
  if ms ≤ 0 then .unknown
  else if ms ≤ 100 then .low
  else if ms ≤ 300 then .medium
  else .high

/-- `proxypool.calculateWeight`: the fixed latency-to-weight step function. -/
def calculateWeight (latencyMs : Int) : Int :=
  if latencyMs < 0 then 1
  else if latencyMs ≤ 50 then 100
  else if latencyMs ≤ 100 then 80
  else if latencyMs ≤ 200 then 50
  else if latencyMs ≤ 300 then 30
  else if latencyMs ≤ 500 then 15
  else 5

/-- Decimal digits of a natural number, most significant first, as in Go's
`strconv`-style decimal formatting of the components of a timestamp. -/
def natDigits (n : Nat) : List Char :=
  if h : n < 10 then [Char.ofNat (48 + n)]
  else
    have : n / 10 < n := Nat.div_lt_self (by omega) (by omega)
    natDigits (n / 10) ++ [Char.ofNat (48 + n % 10)]

/-- Left-pad the decimal form of `n` with zeros to width `w`, as Go's
`time.Format` pads each component of the layout `"20060102150405"`. -/
def padNum (w n : Nat) : String :=
  String.mk (List.replicate (w - (natDigits n).length) '0' ++ natDigits n)

/-- A wall-clock instant, holding the components `time.Now()` exposes to
`Format("20060102150405")`. -/
structure GoTime where
  year : Nat
  month : Nat
  day : Nat
  hour : Nat
  minute : Nat
  second : Nat
deriving DecidableEq, Repr

/-- `time.Now().Format("20060102150405")`: year padded to 4 digits, the
other five components to 2. -/
def formatTimestamp (t : GoTime) : String :=
  padNum 4 t.year ++ padNum 2 t.month ++ padNum 2 t.day ++
    padNum 2 t.hour ++ padNum 2 t.minute ++ padNum 2 t.second

/-- The alphabet used by `store.randomString`. -/
def idLetters : List Char := "abcdefghijklmnopqrstuvwxyz0123456789".toList

/-- `store.randomString n`: one letter per step, drawn from the current
nanosecond clock; the successive clock readings are an oracle `seed`. -/
def randomString (seed : Nat → Nat) (n : Nat) : String :=
  String.mk ((List.range n).map (fun i => idLetters.getD (seed i % 36) 'a'))

/-- `store.generateID`: 14-digit timestamp followed by 6 random letters. -/
def generateID (t : GoTime) (seed : Nat → Nat) : String :=
  formatTimestamp t ++ randomString seed 6

/-- `Store.AddSubscription`: assign a generated id when absent, stamp
creation/update times, default the refresh interval to "1h", insert and
persist.  Returns the new state and the stored record. -/
def Store.AddSubscription (s : Store) (t : GoTime) (seed : Nat → Nat)
    (now : Nat) (sub : Subscription) : Store × Subscription :=
  let sub := if sub.id = "" then { sub with id := generateID t seed } else sub
  let sub := { sub with createdAt := now, updatedAt := now }
  let sub := if sub.refreshInterval = "" then { sub with refreshInterval := "1h" }
             else sub
  (Store.save { s with subscriptions := assocInsert sub.id sub s.subscriptions },
   sub)

/-- `Store.UpdateSubscription`: replace an existing record, stamp the update
time, persist; `SubscriptionNotFound` when the id is unknown. -/
def Store.UpdateSubscription (s : Store) (now : Nat) (sub : Subscription) :
    Store × Option StoreError :=
  match s.subscriptions.lookup sub.id with
  | none => (s, some .subscriptionNotFound)
  | some _ =>
      let sub := { sub with updatedAt := now }
      (Store.save { s with subscriptions := assocInsert sub.id sub s.subscriptions },
       none)

/-- `Store.GetSubscription`: lookup by id. -/
def Store.GetSubscription (s : Store) (id : String) :
    Except StoreError Subscription :=
  match s.subscriptions.lookup id with
  | none => .error .subscriptionNotFound
  | some sub => .ok sub

/-- `Store.UpdateNodeState`: unconditional insert-or-replace keyed by name,
falling back to the URI when the name is empty; no persistence. -/
def Store.UpdateNodeState (s : Store) (node : EnhancedNode) : Store :=
  let key := if node.name = "" then node.uri else node.name
  { s with nodeStates := assocInsert key node s.nodeStates }

/-- `Store.GetNodeState`: lookup by key. -/
def Store.GetNodeState (s : Store) (name : String) : Option EnhancedNode :=
  s.nodeStates.lookup name

/-- `Store.SetNodeStatus`: `NodeNotFound` when the key is unknown (state
untouched); otherwise set the node's status and persist. -/
def Store.SetNodeStatus (s : Store) (name : String) (status : NodeStatus) :
    Store × Option StoreError :=
  match s.nodeStates.lookup name with
  | none => (s, some .nodeNotFound)
  | some node =>
      (Store.save
        { s with nodeStates := assocInsert name { node with status := status }
                                 s.nodeStates },
       none)

/-- The values of the node-state map, in map order. -/
def Store.nodeValues (s : Store) : List EnhancedNode :=
  s.nodeStates.map Prod.snd

/-- `Store.ListNodesByLatency`: nodes of the given tier that are enabled and
available. -/
def Store.ListNodesByLatency (s : Store) (level : LatencyLevel) :
    List EnhancedNode :=
  s.nodeValues.filter (fun n =>
    n.latencyLevel == level && n.status == .enabled && n.available)

/-- `Store.ListNodesByRegion`: nodes of the given region that are enabled
and available. -/
def Store.ListNodesByRegion (s : Store) (region : String) :
    List EnhancedNode :=
  s.nodeValues.filter (fun n =>
    n.region == region && n.status == .enabled && n.available)

/-- `Store.ListNodesBySubscription`: nodes of the given subscription id that
are enabled (availability is not required on this path). -/
def Store.ListNodesBySubscription (s : Store) (subID : String) :
    List EnhancedNode :=
  s.nodeValues.filter (fun n =>
    n.subscriptionID == subID && n.status == .enabled)

/-- `Store.ListAvailableNodes`: all enabled and available nodes. -/
def Store.ListAvailableNodes (s : Store) : List EnhancedNode :=
  s.nodeValues.filter (fun n => n.status == .enabled && n.available)

/-- `Store.GetGroupedByLatency`, viewed as the contents of each bucket:
the enabled-and-available nodes whose tier is the given key. -/
def Store.GetGroupedByLatency (s : Store) (level : LatencyLevel) :
    List EnhancedNode :=
  s.nodeValues.filter (fun n =>
    n.status == .enabled && n.available && n.latencyLevel == level)

/-- `Store.GetGroupedByRegion`, viewed as the contents of each bucket:
the enabled-and-available nodes grouped by region, an empty region grouping
under the literal `"unknown"`. -/
def Store.GetGroupedByRegion (s : Store) (key : String) : List EnhancedNode :=
  s.nodeValues.filter (fun n =>
    n.status == .enabled && n.available &&
      (if n.region = "" then "unknown" else n.region) == key)

/-- Rotation strategy, from `store.PoolMode`.  Any mode string other than
the three named ones selects the sequential branch in `GetProxy`, so the
four constructors cover all behaviours. -/
inductive PoolMode
  | sequential
  | random
  | latencyFirst
  | weighted
deriving DecidableEq, Repr

/-- Selection filter, from `proxypool.Filter`.  The Go `LatencyLevel` field
is a string whose empty value means "no latency filter"; it is modelled as
an `Option`.  Empty `region` / `subscription` strings mean "no filter", as
in the source. -/
structure Filter where
  latencyLevel : Option LatencyLevel
  region : String
  subscription : String
deriving DecidableEq, Repr

/-- Selection-engine error (`ErrNoAvailableProxy`). -/
inductive PoolError
  | noAvailableProxy
deriving DecidableEq, Repr

/-- The selection engine, from `proxypool.ProxyPool`.  `currentIndex` is the
atomic rotation counter (starts at 0, only incremented). -/
structure ProxyPool where
  mode : PoolMode
  nodes : List EnhancedNode
  currentIndex : Nat
  weights : List (String × Int)
  totalWeight : Int
  fallbackEnabled : Bool
  apiKey : String
deriving Repr

/-- `ProxyPool.updateWeights`: rebuild the name-to-weight table and the
total weight from the current snapshot. -/
def ProxyPool.updateWeights (p : ProxyPool) : ProxyPool :=
  { p with
    weights := p.nodes.foldl
      (fun acc n => assocInsert n.name (calculateWeight n.latency) acc) []
    totalWeight := (p.nodes.map (fun n => calculateWeight n.latency)).sum }

/-- `ProxyPool.RefreshNodes`: replace the snapshot with the registry's
available nodes and recompute the weight table. -/
def ProxyPool.RefreshNodes (p : ProxyPool) (s : Store) : ProxyPool :=
  ProxyPool.updateWeights { p with nodes := s.ListAvailableNodes }

/-- `ProxyPool.getFilteredNodes`: AND-combination of the optional latency,
region and subscription constraints (subscription matches id or name). -/
def ProxyPool.getFilteredNodes (p : ProxyPool) (filter : Option Filter) :
    List EnhancedNode :=
  match filter with
  | none => p.nodes
  | some f =>
      p.nodes.filter (fun node =>
        (match f.latencyLevel with
         | none => true
         | some l => node.latencyLevel == l) &&
        (f.region == "" || node.region == f.region) &&
        (f.subscription == "" || node.subscriptionID == f.subscription ||
          node.subscriptionName == f.subscription))

/-- `ProxyPool.getFallbackNodes`: the relaxation cascade.  A low filter is
retried at medium, then high; a medium filter at high; anything else drops
the latency constraint.  Region and subscription fields are copied
verbatim. -/
def ProxyPool.getFallbackNodes (p : ProxyPool) (f : Filter) :
    List EnhancedNode :=
  match f.latencyLevel with
  | some .low =>
      let nodes := p.getFilteredNodes (some { f with latencyLevel := some .medium })
      if nodes.isEmpty then
        p.getFilteredNodes (some { f with latencyLevel := some .high })
      else nodes
  | some .medium =>
      p.getFilteredNodes (some { f with latencyLevel := some .high })
  | _ =>
      p.getFilteredNodes (some { f with latencyLevel := none })

/-- Index into a nonempty list modulo its length (the shape of every list
access in the selection strategies). -/
def pickMod (l : List EnhancedNode) (i : Nat) (h : l ≠ []) : EnhancedNode :=
  l.get ⟨i % l.length, Nat.mod_lt _ (List.length_pos.mpr h)⟩

/-- The comparison used by `selectLatencyFirst`'s `sort.Slice`: unknown
(negative) latencies sort to the end. -/
def latencyLess (a b : EnhancedNode) : Bool :=
  if a.latency < 0 then false
  else if b.latency < 0 then true
  else a.latency < b.latency

/-- The copy of the filtered list sorted by `sort.Slice` in
`selectLatencyFirst`. -/
def sortedNodes (nodes : List EnhancedNode) : List EnhancedNode :=
  nodes.mergeSort (fun a b => latencyLess a b)

/-- `ProxyPool.selectLatencyFirst`: sort ascending by latency and pick
uniformly among the first `min 3 length` entries. -/
def ProxyPool.selectLatencyFirst (nodes : List EnhancedNode) (rand : Nat)
    (h : nodes ≠ []) : EnhancedNode :=
  pickMod ((sortedNodes nodes).take (min 3 (sortedNodes nodes).length)) rand
    (by
      have hlen : (sortedNodes nodes).length = nodes.length :=
        (nodes.mergeSort_perm _).length_eq
      have hpos : 0 < nodes.length := List.length_pos.mpr h
      intro hnil
      have hl := congrArg List.length hnil
      rw [List.length_take] at hl
      simp only [List.length_nil] at hl
      omega)

/-- The weighted-lottery walk of `selectWeighted`: subtract each node's
weight (1 when absent from the table) until the draw is exhausted. -/
def weightedWalk (weights : List (String × Int)) :
    Int → List EnhancedNode → Option EnhancedNode
  | _, [] => none
  | r, n :: rest =>
      let w := (weights.lookup n.name).getD 1
      if r - w < 0 then some n else weightedWalk weights (r - w) rest

/-- `ProxyPool.selectWeighted`: total the weights of the filtered subset,
draw uniformly in `[0, total)` and walk the list; a zero total falls back to
a uniform pick, an exhausted walk to the first node. -/
def ProxyPool.selectWeighted (p : ProxyPool) (nodes : List EnhancedNode)
    (rand : Nat) (h : nodes ≠ []) : EnhancedNode :=
  let total : Int :=
    nodes.foldl (fun acc n => acc + ((p.weights.lookup n.name).getD 1)) 0
  if total = 0 then pickMod nodes rand h
  else
    let r : Int := (rand : Int) % total
    match weightedWalk p.weights r nodes with
    | some n => n
    | none => pickMod nodes 0 h

/-- The list `GetProxy` selects from: the filtered snapshot, replaced by the
fallback list when it is empty, fallback is enabled and a filter was
supplied. -/
def ProxyPool.candidateNodes (p : ProxyPool) (filter : Option Filter) :
    List EnhancedNode :=
  let nodes := p.getFilteredNodes filter
  if nodes.isEmpty then
    match p.fallbackEnabled, filter with
    | true, some f => p.getFallbackNodes f
    | _, _ => nodes
  else nodes

/-- `ProxyPool.GetProxy`: filter the snapshot, fall back when enabled and
empty, fail with `NoAvailableProxy` when still empty, then dispatch on the
mode.  `rand` is the oracle for the strategy's single random draw; the
returned pool carries the advanced rotation counter in sequential mode. -/
def ProxyPool.GetProxy (p : ProxyPool) (filter : Option Filter) (rand : Nat) :
    Except PoolError (EnhancedNode × ProxyPool) :=
  if h : p.candidateNodes filter = [] then .error .noAvailableProxy
  else
    match p.mode with
    | .random => .ok (pickMod (p.candidateNodes filter) rand h, p)
    | .latencyFirst =>
        .ok (ProxyPool.selectLatencyFirst (p.candidateNodes filter) rand h, p)
    | .weighted => .ok (p.selectWeighted (p.candidateNodes filter) rand h, p)
    | .sequential =>
        .ok (pickMod (p.candidateNodes filter) p.currentIndex h,
             { p with currentIndex := p.currentIndex + 1 })

/-- `ProxyPool.GetProxyList`: the filtered snapshot, truncated to `limit`
entries when `limit` is positive. -/
def ProxyPool.GetProxyList (p : ProxyPool) (filter : Option Filter)
    (limit : Int) : List EnhancedNode :=
  let nodes := p.getFilteredNodes filter
  if 0 < limit ∧ limit < (nodes.length : Int) then nodes.take limit.toNat
  else nodes

/-- `ProxyPool.ValidateAPIKey`: accept everything when no key is
configured, exact match otherwise. -/
def ProxyPool.ValidateAPIKey (p : ProxyPool) (key : String) : Bool :=
  if p.apiKey = "" then true else key == p.apiKey

/-- Region details, from `node.RegionInfo`. -/
structure RegionInfo where
  Code : String
  Name : String
  Flag : String
deriving DecidableEq, Repr

/-- `strings.Contains` on code points.  UTF-8 is self-synchronizing, so
byte-level containment of one valid string in another coincides with
code-point-level containment. -/
def containsAux (hay needle : List Char) : Bool :=
  if needle.isPrefixOf hay then true
  else
    match hay with
    | [] => false
    | _ :: t => containsAux t needle

def strContains (s pattern : String) : Bool :=
  containsAux s.data pattern.data

/-- `strings.ToLower`, restricted to ASCII case mapping (every character in
the tables and the inputs considered here is either ASCII or caseless). -/
def toLowerStr (s : String) : String :=
  String.mk (s.data.map Char.toLower)

def infoHK : RegionInfo := { Code := "HK", Name := "Hong Kong", Flag := "🇭🇰" }
def infoTW : RegionInfo := { Code := "TW", Name := "Taiwan", Flag := "🇹🇼" }
def infoJP : RegionInfo := { Code := "JP", Name := "Japan", Flag := "🇯🇵" }
def infoKR : RegionInfo := { Code := "KR", Name := "South Korea", Flag := "🇰🇷" }
def infoCN : RegionInfo := { Code := "CN", Name := "China", Flag := "🇨🇳" }
def infoSG : RegionInfo := { Code := "SG", Name := "Singapore", Flag := "🇸🇬" }
def infoMY : RegionInfo := { Code := "MY", Name := "Malaysia", Flag := "🇲🇾" }
def infoTH : RegionInfo := { Code := "TH", Name := "Thailand", Flag := "🇹🇭" }
def infoVN : RegionInfo := { Code := "VN", Name := "Vietnam", Flag := "🇻🇳" }
def infoPH : RegionInfo := { Code := "PH", Name := "Philippines", Flag := "🇵🇭" }
def infoID : RegionInfo := { Code := "ID", Name := "Indonesia", Flag := "🇮🇩" }
def infoUS : RegionInfo := { Code := "US", Name := "United States", Flag := "🇺🇸" }
def infoCA : RegionInfo := { Code := "CA", Name := "Canada", Flag := "🇨🇦" }
def infoGB : RegionInfo := { Code := "GB", Name := "United Kingdom", Flag := "🇬🇧" }
def infoDE : RegionInfo := { Code := "DE", Name := "Germany", Flag := "🇩🇪" }
def infoFR : RegionInfo := { Code := "FR", Name := "France", Flag := "🇫🇷" }
def infoNL : RegionInfo := { Code := "NL", Name := "Netherlands", Flag := "🇳🇱" }
def infoRU : RegionInfo := { Code := "RU", Name := "Russia", Flag := "🇷🇺" }
def infoIT : RegionInfo := { Code := "IT", Name := "Italy", Flag := "🇮🇹" }
def infoES : RegionInfo := { Code := "ES", Name := "Spain", Flag := "🇪🇸" }
def infoCH : RegionInfo := { Code := "CH", Name := "Switzerland", Flag := "🇨🇭" }
def infoSE : RegionInfo := { Code := "SE", Name := "Sweden", Flag := "🇸🇪" }
def infoFI : RegionInfo := { Code := "FI", Name := "Finland", Flag := "🇫🇮" }
def infoNO : RegionInfo := { Code := "NO", Name := "Norway", Flag := "🇳🇴" }
def infoPL : RegionInfo := { Code := "PL", Name := "Poland", Flag := "🇵🇱" }
def infoTR : RegionInfo := { Code := "TR", Name := "Turkey", Flag := "🇹🇷" }
def infoAU : RegionInfo := { Code := "AU", Name := "Australia", Flag := "🇦🇺" }
def infoNZ : RegionInfo := { Code := "NZ", Name := "New Zealand", Flag := "🇳🇿" }
def infoBR : RegionInfo := { Code := "BR", Name := "Brazil", Flag := "🇧🇷" }
def infoAR : RegionInfo := { Code := "AR", Name := "Argentina", Flag := "🇦🇷" }
def infoAE : RegionInfo := { Code := "AE", Name := "UAE", Flag := "🇦🇪" }
def infoIL : RegionInfo := { Code := "IL", Name := "Israel", Flag := "🇮🇱" }
def infoIN : RegionInfo := { Code := "IN", Name := "India", Flag := "🇮🇳" }

/-- `node.regionPatterns`: the keyword table, one entry per Go map key. -/
def regionPatterns : List (String × RegionInfo) :=
  [("hk", infoHK),
   ("hongkong", infoHK),
   ("hong kong", infoHK),
   ("香港", infoHK),
   ("tw", infoTW),
   ("taiwan", infoTW),
   ("台湾", infoTW),
   ("台灣", infoTW),
   ("jp", infoJP),
   ("japan", infoJP),
   ("日本", infoJP),
   ("东京", infoJP),
   ("大阪", infoJP),
   ("kr", infoKR),
   ("korea", infoKR),
   ("韩国", infoKR),
   ("韓國", infoKR),
   ("首尔", infoKR),
   ("cn", infoCN),
   ("china", infoCN),
   ("中国", infoCN),
   ("中國", infoCN),
   ("上海", infoCN),
   ("北京", infoCN),
   ("广州", infoCN),
   ("深圳", infoCN),
   ("sg", infoSG),
   ("singapore", infoSG),
   ("新加坡", infoSG),
   ("狮城", infoSG),
   ("my", infoMY),
   ("malaysia", infoMY),
   ("马来西亚", infoMY),
   ("th", infoTH),
   ("thailand", infoTH),
   ("泰国", infoTH),
   ("曼谷", infoTH),
   ("vn", infoVN),
   ("vietnam", infoVN),
   ("越南", infoVN),
   ("ph", infoPH),
   ("philippines", infoPH),
   ("菲律宾", infoPH),
   ("id", infoID),
   ("indonesia", infoID),
   ("印尼", infoID),
   ("印度尼西亚", infoID),
   ("us", infoUS),
   ("usa", infoUS),
   ("america", infoUS),
   ("美国", infoUS),
   ("洛杉矶", infoUS),
   ("纽约", infoUS),
   ("西雅图", infoUS),
   ("圣何塞", infoUS),
   ("硅谷", infoUS),
   ("达拉斯", infoUS),
   ("芝加哥", infoUS),
   ("ca", infoCA),
   ("canada", infoCA),
   ("加拿大", infoCA),
   ("多伦多", infoCA),
   ("温哥华", infoCA),
   ("uk", infoGB),
   ("gb", infoGB),
   ("england", infoGB),
   ("britain", infoGB),
   ("英国", infoGB),
   ("伦敦", infoGB),
   ("de", infoDE),
   ("germany", infoDE),
   ("德国", infoDE),
   ("法兰克福", infoDE),
   ("fr", infoFR),
   ("france", infoFR),
   ("法国", infoFR),
   ("巴黎", infoFR),
   ("nl", infoNL),
   ("netherlands", infoNL),
   ("荷兰", infoNL),
   ("阿姆斯特丹", infoNL),
   ("ru", infoRU),
   ("russia", infoRU),
   ("俄罗斯", infoRU),
   ("莫斯科", infoRU),
   ("it", infoIT),
   ("italy", infoIT),
   ("意大利", infoIT),
   ("es", infoES),
   ("spain", infoES),
   ("西班牙", infoES),
   ("ch", infoCH),
   ("switzerland", infoCH),
   ("瑞士", infoCH),
   ("se", infoSE),
   ("sweden", infoSE),
   ("瑞典", infoSE),
   ("fi", infoFI),
   ("finland", infoFI),
   ("芬兰", infoFI),
   ("no", infoNO),
   ("norway", infoNO),
   ("挪威", infoNO),
   ("pl", infoPL),
   ("poland", infoPL),
   ("波兰", infoPL),
   ("tr", infoTR),
   ("turkey", infoTR),
   ("土耳其", infoTR),
   ("au", infoAU),
   ("australia", infoAU),
   ("澳大利亚", infoAU),
   ("悉尼", infoAU),
   ("墨尔本", infoAU),
   ("nz", infoNZ),
   ("new zealand", infoNZ),
   ("newzealand", infoNZ),
   ("新西兰", infoNZ),
   ("br", infoBR),
   ("brazil", infoBR),
   ("巴西", infoBR),
   ("ar", infoAR),
   ("argentina", infoAR),
   ("阿根廷", infoAR),
   ("ae", infoAE),
   ("uae", infoAE),
   ("阿联酋", infoAE),
   ("迪拜", infoAE),
   ("il", infoIL),
   ("israel", infoIL),
   ("以色列", infoIL),
   ("in", infoIN),
   ("india", infoIN),
   ("印度", infoIN)]

/-- `node.flagToRegion`: the emoji-flag table. -/
def flagToRegion : List (String × RegionInfo) :=
  [("🇭🇰", infoHK),
   ("🇹🇼", infoTW),
   ("🇯🇵", infoJP),
   ("🇰🇷", infoKR),
   ("🇨🇳", infoCN),
   ("🇸🇬", infoSG),
   ("🇲🇾", infoMY),
   ("🇹🇭", infoTH),
   ("🇻🇳", infoVN),
   ("🇵🇭", infoPH),
   ("🇮🇩", infoID),
   ("🇺🇸", infoUS),
   ("🇨🇦", infoCA),
   ("🇬🇧", infoGB),
   ("🇩🇪", infoDE),
   ("🇫🇷", infoFR),
   ("🇳🇱", infoNL),
   ("🇷🇺", infoRU),
   ("🇮🇹", infoIT),
   ("🇪🇸", infoES),
   ("🇨🇭", infoCH),
   ("🇸🇪", infoSE),
   ("🇫🇮", infoFI),
   ("🇳🇴", infoNO),
   ("🇵🇱", infoPL),
   ("🇹🇷", infoTR),
   ("🇦🇺", infoAU),
   ("🇳🇿", infoNZ),
   ("🇧🇷", infoBR),
   ("🇦🇷", infoAR),
   ("🇦🇪", infoAE),
   ("🇮🇱", infoIL),
   ("🇮🇳", infoIN)]

/-- The flag-table entries whose flag occurs in the (unlowered) name. -/
def flagMatches (nodeName : String) : List RegionInfo :=
  (flagToRegion.filter (fun p => strContains nodeName p.1)).map Prod.snd

/-- The keyword-table entries occurring in the lowercased name. -/
def keywordMatches (nodeName : String) : List RegionInfo :=
  (regionPatterns.filter (fun p => strContains (toLowerStr nodeName) p.1)).map
    Prod.snd

/-- The possible results of `node.DetectRegion`: both loops iterate Go maps
in unspecified order, so the result is any matching flag entry; when no flag
matches, any matching keyword entry; when nothing matches (or the name is
empty), the empty region. -/
def DetectRegionPossible (nodeName : String) (info : RegionInfo) : Prop :=
  if nodeName = "" then info = ⟨"", "", ""⟩
  else if (flagMatches nodeName).isEmpty then
    if (keywordMatches nodeName).isEmpty then info = ⟨"", "", ""⟩
    else info ∈ keywordMatches nodeName
  else info ∈ flagMatches nodeName

instance (nodeName : String) (info : RegionInfo) :
    Decidable (DetectRegionPossible nodeName info) := by
  unfold DetectRegionPossible
  infer_instance

/-! Concrete registry states used to instantiate the theorems. -/

/-- A healthy low-latency node. -/
def nodeA : EnhancedNode :=
  { name := "node-a", uri := "vless://a", port := 0, subscriptionID := "sub-1",
    subscriptionName := "SubOne", region := "US", regionName := "United States",
    latency := 50, latencyLevel := .low, status := .enabled, available := true,
    lastCheckAt := 0, failureCount := 0, successCount := 0 }

/-- A healthy medium-latency node (150 ms). -/
def nodeB : EnhancedNode :=
  { name := "node-b", uri := "vless://b", port := 0, subscriptionID := "sub-1",
    subscriptionName := "SubOne", region := "JP", regionName := "Japan",
    latency := 150, latencyLevel := .medium, status := .enabled,
    available := true, lastCheckAt := 0, failureCount := 0, successCount := 0 }

/-- A healthy high-latency node (400 ms). -/
def nodeC : EnhancedNode :=
  { name := "node-c", uri := "vless://c", port := 0, subscriptionID := "sub-1",
    subscriptionName := "SubOne", region := "DE", regionName := "Germany",
    latency := 400, latencyLevel := .high, status := .enabled,
    available := true, lastCheckAt := 0, failureCount := 0, successCount := 0 }

/-- A disabled node. -/
def nodeD : EnhancedNode :=
  { name := "node-d", uri := "vless://d", port := 0, subscriptionID := "sub-1",
    subscriptionName := "SubOne", region := "US", regionName := "United States",
    latency := 40, latencyLevel := .low, status := .disabled, available := true,
    lastCheckAt := 0, failureCount := 0, successCount := 0 }

/-- An enabled node that is currently unavailable. -/
def nodeE : EnhancedNode :=
  { name := "node-e", uri := "vless://e", port := 0, subscriptionID := "sub-1",
    subscriptionName := "SubOne", region := "US", regionName := "United States",
    latency := -1, latencyLevel := .unknown, status := .enabled,
    available := false, lastCheckAt := 0, failureCount := 3, successCount := 0 }

/-- A registry with one healthy, one disabled and one unavailable node. -/
def storeW : Store :=
  { dataDir := ""
    subscriptions := []
    nodeStates := [("node-a", nodeA), ("node-d", nodeD), ("node-e", nodeE)]
    latencyConfig := { lowThreshold := 100, mediumThreshold := 300 }
    disk := none }

/-- A registry holding exactly the medium node B and the high node C. -/
def storeBC : Store :=
  { dataDir := ""
    subscriptions := []
    nodeStates := [("node-b", nodeB), ("node-c", nodeC)]
    latencyConfig := { lowThreshold := 100, mediumThreshold := 300 }
    disk := none }

/-- A freshly constructed pool with fallback enabled. -/
def basePool : ProxyPool :=
  { mode := .sequential, nodes := [], currentIndex := 0, weights := [],
    totalWeight := 0, fallbackEnabled := true, apiKey := "" }

/-- `basePool` after a refresh from `storeBC`: snapshot `[B, C]`. -/
def poolBC : ProxyPool := basePool.RefreshNodes storeBC

/-- The request filter `latency=low`. -/
def filterLow : Filter := { latencyLevel := some .low, region := "", subscription := "" }

/-- The weight step function as the specification words it: latency<0 → 1,
≤50 ms → 100, ≤100 ms → 80, ≤200 ms → 50, ≤300 ms → 30, ≤500 ms → 15,
else → 5.  Stated separately from `calculateWeight` so the code can be
compared against it. -/
def specWeightStep (latency : Int) : Int :=
  if latency < 0 then 1
  else if latency ≤ 50 then 100
  else if latency ≤ 100 then 80
  else if latency ≤ 200 then 50
  else if latency ≤ 300 then 30
  else if latency ≤ 500 then 15
  else 5

/-- The record `AddSubscription` stores when the incoming id is empty. -/
def addedRecord (t : GoTime) (seed : Nat → Nat) (now : Nat)
    (sub : Subscription) : Subscription :=
  { sub with
    id := generateID t seed
    createdAt := now
    updatedAt := now
    refreshInterval :=
      if sub.refreshInterval = "" then "1h" else sub.refreshInterval }

/-- The registry after `AddSubscription` inserts the stored record, before
the save. -/
def addedStore (s : Store) (t : GoTime) (seed : Nat → Nat) (now : Nat)
    (sub : Subscription) : Store :=
  { s with subscriptions := assocInsert (generateID t seed) (addedRecord t seed now sub) s.subscriptions }

/-- Repeated sequential selection: the trace of `k` consecutive `GetProxy`
calls with no filter, threading the pool state. -/
def seqResults (p : ProxyPool) : Nat → List EnhancedNode
  | 0 => []
  | k + 1 =>
      match p.GetProxy none 0 with
      | .ok (n, p') => n :: seqResults p' k
      | .error _ => []

/-- The j-th element of the cycle A, B, C, A, B, C, … -/
def cycNth (A B C : EnhancedNode) (j : Nat) : EnhancedNode :=
  [A, B, C].getD (j % 3) A

/-- The successor of a node in the cycle A → B → C → A. -/
def cycSucc (A B C x : EnhancedNode) : EnhancedNode :=
  if x = A then B else if x = B then C else A

/-! ## Basic lemmas about the embedding -/

theorem save_subscriptions (s : Store) :
    (Store.save s).subscriptions = s.subscriptions := by
  unfold Store.save
  split <;> rfl

theorem save_nodeStates (s : Store) :
    (Store.save s).nodeStates = s.nodeStates := by
  unfold Store.save
  split <;> rfl

theorem lookup_map_update {β : Type} (k : String) (v : β)
    (l : List (String × β)) (hany : l.any (fun p => p.1 == k) = true) :
    (l.map (fun p => if p.1 == k then (k, v) else p)).lookup k = some v := by
  induction l with
  | nil => simp at hany
  | cons p t ih =>
      simp only [List.any_cons, Bool.or_eq_true] at hany
      simp only [List.map_cons]
      by_cases hp : (p.1 == k) = true
      · rw [if_pos hp]
        simp [List.lookup]
      · rw [if_neg hp]
        have hk : (k == p.1) = false := by
          simp only [beq_iff_eq] at hp ⊢
          simp only [beq_eq_false_iff_ne, ne_eq]
          exact fun hkp => hp hkp.symm
        simp only [List.lookup, hk]
        exact ih (hany.resolve_left hp)

theorem lookup_append_new {β : Type} (k : String) (v : β)
    (l : List (String × β)) (hnone : l.any (fun p => p.1 == k) = false) :
    (l ++ [(k, v)]).lookup k = some v := by
  induction l with
  | nil => simp [List.lookup]
  | cons p t ih =>
      simp only [List.any_cons, Bool.or_eq_false_iff] at hnone
      have hk : (k == p.1) = false := by
        simp only [beq_eq_false_iff_ne, ne_eq]
        simp only [beq_eq_false_iff_ne, ne_eq] at hnone
        exact fun hkp => hnone.1 hkp.symm
      simp only [List.cons_append, List.lookup, hk]
      exact ih hnone.2

theorem lookup_assocInsert {β : Type} (k : String) (v : β)
    (l : List (String × β)) : (assocInsert k v l).lookup k = some v := by
  unfold assocInsert
  split
  next hany => exact lookup_map_update k v l hany
  next hany => exact lookup_append_new k v l (Bool.not_eq_true _ ▸ eq_false_of_ne_true hany)

/-! ## C2: the latency classifier -/

/-- C2.  For every store whose thresholds satisfy lo ≤ md and every latency
value v, `CalculateLatencyLevel` returns unknown when v < 0, low when
0 ≤ v ≤ lo, medium when lo < v ≤ md, and high when v > md (cases read in
order, as in the spec's classifier rule, so the later guards carry the
0 ≤ v established by the first). -/
theorem calculateLatencyLevel_spec (s : Store) (v : Int)
    (h : s.latencyConfig.lowThreshold ≤ s.latencyConfig.mediumThreshold) :
    (v < 0 → s.CalculateLatencyLevel v = .unknown) ∧
    (0 ≤ v → v ≤ s.latencyConfig.lowThreshold →
      s.CalculateLatencyLevel v = .low) ∧
    (0 ≤ v → s.latencyConfig.lowThreshold < v →
      v ≤ s.latencyConfig.mediumThreshold →
      s.CalculateLatencyLevel v = .medium) ∧
    (0 ≤ v → s.latencyConfig.mediumThreshold < v →
      s.CalculateLatencyLevel v = .high) := by
  unfold Store.CalculateLatencyLevel
  refine ⟨fun h1 => ?_, fun h1 h2 => ?_, fun h1 h2 h3 => ?_, fun h1 h2 => ?_⟩ <;>
    (split_ifs <;> first | rfl | omega)

/-- Witness for C2 at the default thresholds and v = 150. -/
theorem calculateLatencyLevel_spec_witness :
    NewStore.latencyConfig.lowThreshold ≤ NewStore.latencyConfig.mediumThreshold ∧
    NewStore.CalculateLatencyLevel 150 = .medium :=
  ⟨by decide,
   (calculateLatencyLevel_spec NewStore 150 (by decide)).2.2.1 (by decide)
     (by decide) (by decide)⟩

/-! ## C4: the weight step function -/

/-- C4, counterexample.  `calculateWeight` is not monotonically
non-increasing over all latency values: −1 ≤ 0 but
calculateWeight(−1) = 1 < 100 = calculateWeight(0). -/
theorem calculateWeight_monotone_counterexample :
    (-1 : Int) ≤ 0 ∧ ¬ (calculateWeight (-1) ≥ calculateWeight 0) := by
  decide

/-- C4, amended.  `calculateWeight` equals the spec's step function, is
monotonically non-increasing on non-negative latencies, and gives every
negative (unknown) latency the global minimum weight. -/
theorem calculateWeight_step_and_monotone :
    (∀ v : Int, calculateWeight v = specWeightStep v) ∧
    (∀ a b : Int, 0 ≤ a → a ≤ b → calculateWeight b ≤ calculateWeight a) ∧
    (∀ a b : Int, a < 0 → calculateWeight a ≤ calculateWeight b) := by
  refine ⟨fun v => rfl, fun a b ha hab => ?_, fun a b ha => ?_⟩ <;>
    (unfold calculateWeight; split_ifs <;> omega)

/-- Witness for C4 (amended) at (100, 200) and (−1, 500). -/
theorem calculateWeight_step_and_monotone_witness :
    calculateWeight 200 ≤ calculateWeight 100 ∧
    calculateWeight (-1) ≤ calculateWeight 500 :=
  ⟨calculateWeight_step_and_monotone.2.1 100 200 (by decide) (by decide),
   calculateWeight_step_and_monotone.2.2 (-1) 500 (by decide)⟩

/-! ## C10: the two latency classifiers -/

/-- C10, counterexample.  At v = 0 the HTTP handler's classifier returns
unknown while the store's classifier at the default thresholds returns
low. -/
theorem classifyLatency_zero_counterexample :
    classifyLatency 0 = .unknown ∧
    NewStore.CalculateLatencyLevel 0 = .low ∧
    classifyLatency 0 ≠ NewStore.CalculateLatencyLevel 0 := by
  decide

/-- C10, amended.  Away from v = 0 the two classifiers agree at the default
thresholds (100 ms, 300 ms). -/
theorem classifyLatency_eq_store_off_zero (v : Int) (h : v ≠ 0) :
    classifyLatency v = NewStore.CalculateLatencyLevel v := by
  have h1 : NewStore.latencyConfig.lowThreshold = 100 := rfl
  have h2 : NewStore.latencyConfig.mediumThreshold = 300 := rfl
  unfold classifyLatency Store.CalculateLatencyLevel
  rw [h1, h2]
  split_ifs <;> first | rfl | omega

/-- Witness for C10 (amended) at v = 250. -/
theorem classifyLatency_eq_store_off_zero_witness :
    (250 : Int) ≠ 0 ∧ classifyLatency 250 = NewStore.CalculateLatencyLevel 250 :=
  ⟨by decide, classifyLatency_eq_store_off_zero 250 (by decide)⟩

/-! ## C8: the four listing operations -/

/-- C8.  `ListNodesBySubscription` returns exactly the stored nodes of the
given subscription whose status is enabled, with no availability
requirement; `ListNodesByLatency`, `ListNodesByRegion` and
`ListAvailableNodes` return exactly the stored nodes passing their filter
that are both enabled and available. -/
theorem listings_selectability (s : Store) (n : EnhancedNode) (subID : String)
    (level : LatencyLevel) (region : String) :
    (n ∈ s.ListNodesBySubscription subID ↔
       n ∈ s.nodeValues ∧ n.subscriptionID = subID ∧ n.status = .enabled) ∧
    (n ∈ s.ListNodesByLatency level ↔
       n ∈ s.nodeValues ∧ n.latencyLevel = level ∧ n.status = .enabled ∧
         n.available = true) ∧
    (n ∈ s.ListNodesByRegion region ↔
       n ∈ s.nodeValues ∧ n.region = region ∧ n.status = .enabled ∧
         n.available = true) ∧
    (n ∈ s.ListAvailableNodes ↔
       n ∈ s.nodeValues ∧ n.status = .enabled ∧ n.available = true) := by
  simp [Store.ListNodesBySubscription, Store.ListNodesByLatency,
    Store.ListNodesByRegion, Store.ListAvailableNodes, List.mem_filter,
    and_assoc]

/-! ## C7: setNodeStatus -/

/-- C7.  For a key absent from the node map, `SetNodeStatus` fails with
`NodeNotFound` and returns the registry state — subscriptions, node states,
latency configuration and persisted document — exactly as it was; for a
present key it succeeds and stores the node with the requested status. -/
theorem setNodeStatus_spec (s : Store) (key : String) (st : NodeStatus) :
    (s.nodeStates.lookup key = none →
       s.SetNodeStatus key st = (s, some .nodeNotFound)) ∧
    (∀ node, s.nodeStates.lookup key = some node →
       (s.SetNodeStatus key st).2 = none ∧
       ((s.SetNodeStatus key st).1).nodeStates.lookup key =
         some { node with status := st }) := by
  constructor
  · intro h
    unfold Store.SetNodeStatus
    rw [h]
  · intro node h
    unfold Store.SetNodeStatus
    rw [h]
    exact ⟨rfl, by rw [save_nodeStates]; exact lookup_assocInsert key _ _⟩

/-- Witness for C7 on `storeW`: the unknown key "ghost" fails and mutates
nothing; the present key "node-a" is updated. -/
theorem setNodeStatus_spec_witness :
    storeW.SetNodeStatus "ghost" .blacklisted = (storeW, some .nodeNotFound) ∧
    (storeW.SetNodeStatus "node-a" .disabled).2 = none ∧
    ((storeW.SetNodeStatus "node-a" .disabled).1).nodeStates.lookup "node-a" =
      some { nodeA with status := .disabled } :=
  ⟨(setNodeStatus_spec storeW "ghost" .blacklisted).1 (by decide),
   ((setNodeStatus_spec storeW "node-a" .disabled).2 nodeA (by decide)).1,
   ((setNodeStatus_spec storeW "node-a" .disabled).2 nodeA (by decide)).2⟩

/-! ## C9: addSubscription round trip -/

theorem natDigits_ne_nil (n : Nat) : natDigits n ≠ [] := by
  unfold natDigits
  split <;> simp

theorem data_append (a b : String) : (a ++ b).data = a.data ++ b.data := by
  cases a
  cases b
  rfl

theorem padNum_data (w n : Nat) :
    (padNum w n).data =
      List.replicate (w - (natDigits n).length) '0' ++ natDigits n := rfl

theorem generateID_ne_empty (t : GoTime) (seed : Nat → Nat) :
    generateID t seed ≠ "" := by
  intro h
  have hd := congrArg String.data h
  rw [generateID, data_append] at hd
  have h1 : (formatTimestamp t).data = [] := (List.append_eq_nil.mp hd).1
  rw [formatTimestamp, data_append, data_append, data_append, data_append,
    data_append] at h1
  have h2 : (padNum 4 t.year).data = [] := by
    have := (List.append_eq_nil.mp h1).1
    have := (List.append_eq_nil.mp this).1
    have := (List.append_eq_nil.mp this).1
    have := (List.append_eq_nil.mp this).1
    exact (List.append_eq_nil.mp this).1
  rw [padNum_data] at h2
  exact natDigits_ne_nil t.year (List.append_eq_nil.mp h2).2

theorem addSubscription_eq (s : Store) (t : GoTime) (seed : Nat → Nat)
    (now : Nat) (sub : Subscription) (hid : sub.id = "") :
    s.AddSubscription t seed now sub =
      (Store.save (addedStore s t seed now sub), addedRecord t seed now sub) := by
  by_cases hri : sub.refreshInterval = "" <;>
    simp [Store.AddSubscription, addedRecord, addedStore, hid, hri]

/-- C9.  Adding a subscription with an empty identifier assigns a non-empty
generated identifier, defaults an empty refresh interval to "1h", and a
subsequent `GetSubscription` with the resulting identifier returns the
stored record, whose URL and name are the ones passed in. -/
theorem addSubscription_roundtrip (s : Store) (t : GoTime) (seed : Nat → Nat)
    (now : Nat) (sub : Subscription) (hid : sub.id = "") :
    ((s.AddSubscription t seed now sub).2.id ≠ "") ∧
    (sub.refreshInterval = "" →
       (s.AddSubscription t seed now sub).2.refreshInterval = "1h") ∧
    ((s.AddSubscription t seed now sub).1.GetSubscription
        (s.AddSubscription t seed now sub).2.id =
      .ok (s.AddSubscription t seed now sub).2) ∧
    (s.AddSubscription t seed now sub).2.url = sub.url ∧
    (s.AddSubscription t seed now sub).2.name = sub.name := by
  rw [addSubscription_eq s t seed now sub hid]
  refine ⟨?_, ?_, ?_, rfl, rfl⟩
  · simpa [addedRecord] using generateID_ne_empty t seed
  · intro hri
    simp [addedRecord, hri]
  · dsimp only
    have hkey : (addedRecord t seed now sub).id = generateID t seed := rfl
    have hsubs : (addedStore s t seed now sub).subscriptions =
        assocInsert (generateID t seed) (addedRecord t seed now sub)
          s.subscriptions := rfl
    unfold Store.GetSubscription
    rw [save_subscriptions, hkey, hsubs, lookup_assocInsert]

/-- Witness for C9: a concrete add into the fresh store round-trips. -/
theorem addSubscription_roundtrip_witness :
    ((NewStore.AddSubscription ⟨2026, 1, 30, 12, 0, 0⟩ (fun _ => 7) 0
        { id := "", name := "My Feed", url := "https://example.com/sub",
          enabled := true, refreshInterval := "", lastRefreshAt := 0,
          nodeCount := 0, lastError := "", createdAt := 0,
          updatedAt := 0 }).2.id ≠ "") ∧
    ((NewStore.AddSubscription ⟨2026, 1, 30, 12, 0, 0⟩ (fun _ => 7) 0
        { id := "", name := "My Feed", url := "https://example.com/sub",
          enabled := true, refreshInterval := "", lastRefreshAt := 0,
          nodeCount := 0, lastError := "", createdAt := 0,
          updatedAt := 0 }).2.refreshInterval = "1h") :=
  ⟨(addSubscription_roundtrip NewStore ⟨2026, 1, 30, 12, 0, 0⟩ (fun _ => 7) 0
      { id := "", name := "My Feed", url := "https://example.com/sub",
        enabled := true, refreshInterval := "", lastRefreshAt := 0,
        nodeCount := 0, lastError := "", createdAt := 0, updatedAt := 0 }
      rfl).1,
   (addSubscription_roundtrip NewStore ⟨2026, 1, 30, 12, 0, 0⟩ (fun _ => 7) 0
      { id := "", name := "My Feed", url := "https://example.com/sub",
        enabled := true, refreshInterval := "", lastRefreshAt := 0,
        nodeCount := 0, lastError := "", createdAt := 0, updatedAt := 0 }
      rfl).2.1 rfl⟩

/-! ## C1: the selectability invariant -/

theorem pickMod_mem (l : List EnhancedNode) (i : Nat) (h : l ≠ []) :
    pickMod l i h ∈ l :=
  List.get_mem _ _ _

theorem sortedNodes_mem {a : EnhancedNode} {nodes : List EnhancedNode} :
    a ∈ sortedNodes nodes ↔ a ∈ nodes :=
  (nodes.mergeSort_perm _).mem_iff

theorem selectLatencyFirst_mem (nodes : List EnhancedNode) (rand : Nat)
    (h : nodes ≠ []) : ProxyPool.selectLatencyFirst nodes rand h ∈ nodes := by
  unfold ProxyPool.selectLatencyFirst
  exact sortedNodes_mem.mp (List.take_subset _ _ (pickMod_mem _ _ _))

theorem weightedWalk_mem (w : List (String × Int)) (r : Int)
    (l : List EnhancedNode) (n : EnhancedNode) :
    weightedWalk w r l = some n → n ∈ l := by
  induction l generalizing r with
  | nil => intro h; simp [weightedWalk] at h
  | cons a t ih =>
      intro h
      unfold weightedWalk at h
      dsimp only at h
      split at h
      · cases h
        exact List.mem_cons_self _ _
      · exact List.mem_cons_of_mem _ (ih _ h)

theorem selectWeighted_mem (p : ProxyPool) (nodes : List EnhancedNode)
    (rand : Nat) (h : nodes ≠ []) : p.selectWeighted nodes rand h ∈ nodes := by
  unfold ProxyPool.selectWeighted
  dsimp only
  split
  · exact pickMod_mem _ _ _
  · split
    next n hn => exact weightedWalk_mem _ _ _ _ hn
    next hn => exact pickMod_mem _ _ _

theorem getFilteredNodes_subset (p : ProxyPool) (filter : Option Filter) :
    p.getFilteredNodes filter ⊆ p.nodes := by
  unfold ProxyPool.getFilteredNodes
  cases filter with
  | none => exact fun _ h => h
  | some f =>
      dsimp only
      exact (List.filter_sublist _).subset

theorem getFallbackNodes_subset (p : ProxyPool) (f : Filter) :
    p.getFallbackNodes f ⊆ p.nodes := by
  unfold ProxyPool.getFallbackNodes
  split
  · dsimp only
    split
    · exact getFilteredNodes_subset _ _
    · exact getFilteredNodes_subset _ _
  · exact getFilteredNodes_subset _ _
  · exact getFilteredNodes_subset _ _

theorem candidateNodes_subset (p : ProxyPool) (filter : Option Filter) :
    p.candidateNodes filter ⊆ p.nodes := by
  unfold ProxyPool.candidateNodes
  dsimp only
  split
  · split
    · exact getFallbackNodes_subset _ _
    · exact getFilteredNodes_subset _ _
  · exact getFilteredNodes_subset _ _

theorem GetProxy_ok_mem (p : ProxyPool) (filter : Option Filter) (rand : Nat)
    (n : EnhancedNode) (p' : ProxyPool) :
    p.GetProxy filter rand = .ok (n, p') → n ∈ p.nodes := by
  unfold ProxyPool.GetProxy
  split
  · intro h; cases h
  · next h =>
      split <;> intro hok <;>
        simp only [Except.ok.injEq, Prod.mk.injEq] at hok <;>
        obtain ⟨h1, -⟩ := hok <;> subst h1
      · exact candidateNodes_subset _ _ (pickMod_mem _ _ _)
      · exact candidateNodes_subset _ _ (selectLatencyFirst_mem _ _ _)
      · exact candidateNodes_subset _ _ (selectWeighted_mem _ _ _ _)
      · exact candidateNodes_subset _ _ (pickMod_mem _ _ _)

theorem GetProxyList_mem (p : ProxyPool) (filter : Option Filter) (limit : Int)
    (n : EnhancedNode) : n ∈ p.GetProxyList filter limit → n ∈ p.nodes := by
  unfold ProxyPool.GetProxyList
  dsimp only
  split
  · intro h
    exact getFilteredNodes_subset _ _ (List.take_subset _ _ h)
  · exact fun h => getFilteredNodes_subset _ _ h

theorem RefreshNodes_nodes (p : ProxyPool) (s : Store) :
    (p.RefreshNodes s).nodes = s.ListAvailableNodes := rfl

/-- C1.  A node that is not enabled or not available never appears in
`ListAvailableNodes`, in any bucket of `GetGroupedByLatency` or
`GetGroupedByRegion`, or in any `GetProxy` / `GetProxyList` result computed
from a snapshot refreshed from the registry, whatever the filter: every
node that does appear is enabled and available. -/
theorem selectability_invariant (s : Store) (p0 : ProxyPool)
    (filter : Option Filter) (rand : Nat) (limit : Int) (level : LatencyLevel)
    (regionKey : String) (n : EnhancedNode) (p' : ProxyPool) :
    (n ∈ s.ListAvailableNodes → n.status = .enabled ∧ n.available = true) ∧
    (n ∈ s.GetGroupedByLatency level →
       n.status = .enabled ∧ n.available = true) ∧
    (n ∈ s.GetGroupedByRegion regionKey →
       n.status = .enabled ∧ n.available = true) ∧
    ((p0.RefreshNodes s).GetProxy filter rand = .ok (n, p') →
       n.status = .enabled ∧ n.available = true) ∧
    (n ∈ (p0.RefreshNodes s).GetProxyList filter limit →
       n.status = .enabled ∧ n.available = true) := by
  have havail : ∀ m : EnhancedNode, m ∈ s.ListAvailableNodes →
      m.status = .enabled ∧ m.available = true := by
    intro m hm
    simp only [Store.ListAvailableNodes, List.mem_filter, Bool.and_eq_true,
      beq_iff_eq] at hm
    exact hm.2
  refine ⟨havail n, ?_, ?_, ?_, ?_⟩
  · intro hm
    simp only [Store.GetGroupedByLatency, List.mem_filter, Bool.and_eq_true,
      beq_iff_eq] at hm
    exact ⟨hm.2.1.1, hm.2.1.2⟩
  · intro hm
    simp only [Store.GetGroupedByRegion, List.mem_filter, Bool.and_eq_true,
      beq_iff_eq] at hm
    exact ⟨hm.2.1.1, hm.2.1.2⟩
  · intro hok
    have hmem := GetProxy_ok_mem _ _ _ _ _ hok
    rw [RefreshNodes_nodes] at hmem
    exact havail n hmem
  · intro hmem
    have hmem' := GetProxyList_mem _ _ _ _ hmem
    rw [RefreshNodes_nodes] at hmem'
    exact havail n hmem'

/-- Witness for C1: the healthy node of `storeW` is listed and is indeed
enabled and available. -/
theorem selectability_invariant_witness :
    nodeA ∈ storeW.ListAvailableNodes ∧
    nodeA.status = .enabled ∧ nodeA.available = true :=
  ⟨by decide,
   (selectability_invariant storeW basePool none 0 0 .low "US" nodeA
     basePool).1 (by decide)⟩

/-! ## C5: the fallback cascade -/

theorem candidateNodes_of_empty (p : ProxyPool) (f : Filter)
    (hfb : p.fallbackEnabled = true)
    (hempty : p.getFilteredNodes (some f) = []) :
    p.candidateNodes (some f) = p.getFallbackNodes f := by
  simp [ProxyPool.candidateNodes, hempty, hfb]

theorem GetProxy_ok_of_ne_nil (p : ProxyPool) (filter : Option Filter)
    (rand : Nat) (h : p.candidateNodes filter ≠ []) :
    ∃ n p', p.GetProxy filter rand = .ok (n, p') ∧
      n ∈ p.candidateNodes filter := by
  unfold ProxyPool.GetProxy
  rw [dif_neg h]
  cases p.mode
  · exact ⟨_, _, rfl, pickMod_mem _ _ _⟩
  · exact ⟨_, _, rfl, pickMod_mem _ _ _⟩
  · exact ⟨_, _, rfl, selectLatencyFirst_mem _ _ _⟩
  · exact ⟨_, _, rfl, selectWeighted_mem _ _ _ _⟩

/-- C5.  With fallback enabled and an empty filtered result, `GetProxy`
selects from `getFallbackNodes`, which relaxes only the latency constraint
along the fixed cascade (low → medium → high, medium → high, any other tier
→ unfiltered) while keeping the region and subscription fields verbatim;
when the relaxed list is also empty the call fails with `NoAvailableProxy`.
On the concrete snapshot `[B (150 ms, medium), C (400 ms, high)]` a `low`
request with fallback returns B under every mode and random draw. -/
theorem fallback_cascade (p : ProxyPool) (f : Filter) (rand : Nat)
    (hfb : p.fallbackEnabled = true)
    (hempty : p.getFilteredNodes (some f) = []) :
    (p.getFallbackNodes f = [] →
       p.GetProxy (some f) rand = .error .noAvailableProxy) ∧
    (p.getFallbackNodes f ≠ [] →
       ∃ n p', p.GetProxy (some f) rand = .ok (n, p') ∧
         n ∈ p.getFallbackNodes f) ∧
    (f.latencyLevel = some .low →
       p.getFallbackNodes f =
         (if p.getFilteredNodes (some { latencyLevel := some .medium, region := f.region, subscription := f.subscription }) = []
          then p.getFilteredNodes (some { latencyLevel := some .high, region := f.region, subscription := f.subscription })
          else p.getFilteredNodes (some { latencyLevel := some .medium, region := f.region, subscription := f.subscription }))) ∧
    (f.latencyLevel = some .medium →
       p.getFallbackNodes f =
         p.getFilteredNodes (some { latencyLevel := some .high, region := f.region, subscription := f.subscription })) ∧
    (f.latencyLevel ≠ some .low → f.latencyLevel ≠ some .medium →
       p.getFallbackNodes f =
         p.getFilteredNodes (some { latencyLevel := none, region := f.region, subscription := f.subscription })) ∧
    (∀ (mode : PoolMode) (rand2 : Nat), ∃ p',
       ({ poolBC with mode := mode }).GetProxy (some filterLow) rand2 =
         .ok (nodeB, p')) := by
  obtain ⟨fl, fr, fs⟩ := f
  refine ⟨?_, ?_, ?_, ?_, ?_, ?_⟩
  · intro hfbk
    unfold ProxyPool.GetProxy
    rw [dif_pos]
    rw [candidateNodes_of_empty _ _ hfb hempty, hfbk]
  · intro hne
    have h' : ProxyPool.candidateNodes p (some ⟨fl, fr, fs⟩) ≠ [] := by
      rw [candidateNodes_of_empty _ _ hfb hempty]
      exact hne
    obtain ⟨n, p', hok, hmem⟩ := GetProxy_ok_of_ne_nil p _ rand h'
    rw [candidateNodes_of_empty _ _ hfb hempty] at hmem
    exact ⟨n, p', hok, hmem⟩
  · intro hl
    subst hl
    have hiff : ∀ l : List EnhancedNode, l.isEmpty = true ↔ l = [] := by
      intro l
      cases l <;> simp
    simp only [ProxyPool.getFallbackNodes, hiff]
  · intro hm
    subst hm
    rfl
  · intro h1 h2
    cases fl with
    | none => rfl
    | some l =>
        cases l with
        | low => exact absurd rfl h1
        | medium => exact absurd rfl h2
        | high => rfl
        | unknown => rfl
  · intro mode rand2
    have hcand : ({ poolBC with mode := mode }).candidateNodes
        (some filterLow) = [nodeB] := rfl
    have hne : ({ poolBC with mode := mode }).candidateNodes
        (some filterLow) ≠ [] := by rw [hcand]; simp
    obtain ⟨n, p', hok, hmem⟩ :=
      GetProxy_ok_of_ne_nil { poolBC with mode := mode } (some filterLow)
        rand2 hne
    rw [hcand] at hmem
    have hn : n = nodeB := by simpa using hmem
    subst hn
    exact ⟨p', hok⟩

/-- Witness for C5: the concrete low-filter request on the B/C snapshot. -/
theorem fallback_cascade_witness :
    ∃ n p', poolBC.GetProxy (some filterLow) 0 = .ok (n, p') ∧
      n ∈ poolBC.getFallbackNodes filterLow :=
  (fallback_cascade poolBC filterLow 0 rfl rfl).2.1 (by decide)

/-! ## C6: sequential rotation -/

theorem candidateNodes_none (p : ProxyPool) : p.candidateNodes none = p.nodes := by
  unfold ProxyPool.candidateNodes ProxyPool.getFilteredNodes
  dsimp only
  split
  · cases p.fallbackEnabled <;> rfl
  · rfl

theorem GetProxy_sequential (p : ProxyPool) (hmode : p.mode = .sequential)
    (h : p.candidateNodes none ≠ []) :
    p.GetProxy none 0 =
      .ok (pickMod (p.candidateNodes none) p.currentIndex h,
           { p with currentIndex := p.currentIndex + 1 }) := by
  unfold ProxyPool.GetProxy
  rw [dif_neg h, hmode]

theorem pickMod_eq_some (l : List EnhancedNode) (i : Nat) (h : l ≠ [])
    (x : EnhancedNode) (hx : l.get? (i % l.length) = some x) :
    pickMod l i h = x := by
  unfold pickMod
  rw [List.get?_eq_get (Nat.mod_lt i (List.length_pos.mpr h))] at hx
  exact Option.some_injective _ hx

theorem seqResults_step (L : List EnhancedNode) (hL : L ≠ [])
    (w : List (String × Int)) (tw : Int) (fb : Bool) (key : String)
    (i m : Nat) :
    seqResults ⟨.sequential, L, i, w, tw, fb, key⟩ (m + 1) =
      pickMod L i hL :: seqResults ⟨.sequential, L, i + 1, w, tw, fb, key⟩ m := by
  have hc : (⟨.sequential, L, i, w, tw, fb, key⟩ : ProxyPool).candidateNodes
      none = L := candidateNodes_none _
  have hne : (⟨.sequential, L, i, w, tw, fb, key⟩ : ProxyPool).candidateNodes
      none ≠ [] := by rw [hc]; exact hL
  rw [seqResults, GetProxy_sequential _ rfl hne]
  show pickMod _ i hne :: _ = _
  congr 1
  revert hne
  rw [hc]
  intro hne
  rfl

theorem seqResults_closed (L : List EnhancedNode) (hL : L ≠ [])
    (w : List (String × Int)) (tw : Int) (fb : Bool) (key : String) :
    ∀ k i : Nat, seqResults ⟨.sequential, L, i, w, tw, fb, key⟩ k =
      (List.range k).map (fun j => pickMod L (i + j) hL) := by
  intro k
  induction k with
  | zero => intro i; rfl
  | succ m ih =>
      intro i
      rw [seqResults_step L hL w tw fb key i m, ih (i + 1),
        List.range_succ_eq_map, List.map_cons, List.map_map]
      rw [show i + 0 = i from rfl]
      congr 1
      refine List.map_congr_left ?_
      intro a _
      simp only [Function.comp_apply]
      have e : i + 1 + a = i + (a + 1) := by omega
      rw [e]

/-- C6.  In sequential mode over a fixed snapshot `[A, B, C]` of three
distinct nodes, six consecutive `GetProxy` calls with no filter and no
intervening refresh return each node exactly twice, and each call returns
the cyclic successor of the previous call's node — from any starting value
of the rotation counter. -/
theorem sequential_rotation (A B C : EnhancedNode) (i : Nat)
    (w : List (String × Int)) (tw : Int) (fb : Bool) (key : String)
    (hAB : A ≠ B) (hAC : A ≠ C) (hBC : B ≠ C) :
    (seqResults ⟨.sequential, [A, B, C], i, w, tw, fb, key⟩ 6).count A = 2 ∧
    (seqResults ⟨.sequential, [A, B, C], i, w, tw, fb, key⟩ 6).count B = 2 ∧
    (seqResults ⟨.sequential, [A, B, C], i, w, tw, fb, key⟩ 6).count C = 2 ∧
    (∀ k, k + 1 < 6 →
       (seqResults ⟨.sequential, [A, B, C], i, w, tw, fb, key⟩ 6).get? (k + 1) =
         ((seqResults ⟨.sequential, [A, B, C], i, w, tw, fb, key⟩ 6).get? k).map
           (cycSucc A B C)) := by
  have hL : ([A, B, C] : List EnhancedNode) ≠ [] := by simp
  have hpick : ∀ (j : Nat) (h : ([A, B, C] : List EnhancedNode) ≠ []),
      pickMod [A, B, C] j h = cycNth A B C j := by
    intro j h
    apply pickMod_eq_some
    have h3 : j % 3 = 0 ∨ j % 3 = 1 ∨ j % 3 = 2 := by omega
    show ([A, B, C] : List EnhancedNode).get? (j % 3) = some (cycNth A B C j)
    unfold cycNth
    rcases h3 with h3 | h3 | h3 <;> rw [h3] <;> rfl
  have h6 := seqResults_closed [A, B, C] hL w tw fb key 6 i
  simp only [hpick] at h6
  rw [show List.range 6 = [0, 1, 2, 3, 4, 5] from rfl, List.map_cons,
    List.map_cons, List.map_cons, List.map_cons, List.map_cons, List.map_cons,
    List.map_nil] at h6
  have hcyc : ∀ c : Nat, cycNth A B C (i + c) = cycNth A B C (i % 3 + c) := by
    intro c
    unfold cycNth
    have e : (i + c) % 3 = (i % 3 + c) % 3 := by omega
    rw [e]
  simp only [hcyc] at h6
  have h3 : i % 3 = 0 ∨ i % 3 = 1 ∨ i % 3 = 2 := by omega
  have hBA : B ≠ A := Ne.symm hAB
  have hCA : C ≠ A := Ne.symm hAC
  have hCB : C ≠ B := Ne.symm hBC
  rcases h3 with h3 | h3 | h3 <;>
    rw [h3] at h6 <;>
    simp only [show cycNth A B C (0 + 0) = A from rfl,
      show cycNth A B C (0 + 1) = B from rfl,
      show cycNth A B C (0 + 2) = C from rfl,
      show cycNth A B C (0 + 3) = A from rfl,
      show cycNth A B C (0 + 4) = B from rfl,
      show cycNth A B C (0 + 5) = C from rfl,
      show cycNth A B C (1 + 0) = B from rfl,
      show cycNth A B C (1 + 1) = C from rfl,
      show cycNth A B C (1 + 2) = A from rfl,
      show cycNth A B C (1 + 3) = B from rfl,
      show cycNth A B C (1 + 4) = C from rfl,
      show cycNth A B C (1 + 5) = A from rfl,
      show cycNth A B C (2 + 0) = C from rfl,
      show cycNth A B C (2 + 1) = A from rfl,
      show cycNth A B C (2 + 2) = B from rfl,
      show cycNth A B C (2 + 3) = C from rfl,
      show cycNth A B C (2 + 4) = A from rfl,
      show cycNth A B C (2 + 5) = B from rfl] at h6 <;>
    rw [h6] <;>
    exact ⟨by simp [List.count_cons, List.count_nil, hAB, hAC, hBC, hBA, hCA, hCB],
      by simp [List.count_cons, List.count_nil, hAB, hAC, hBC, hBA, hCA, hCB],
      by simp [List.count_cons, List.count_nil, hAB, hAC, hBC, hBA, hCA, hCB],
      by
        intro k hk
        have hk5 : k < 5 := by omega
        interval_cases k <;>
          simp [cycSucc, hAB, hAC, hBC, hBA, hCA, hCB]⟩

/-- Witness for C6 at the concrete distinct nodes A, B, C and counter 0. -/
theorem sequential_rotation_witness :
    (seqResults ⟨.sequential, [nodeA, nodeB, nodeC], 0, [], 0, false, ""⟩
       6).count nodeA = 2 :=
  (sequential_rotation nodeA nodeB nodeC 0 [] 0 false "" (by decide) (by decide)
    (by decide)).1

/-! ## C3: region detection examples -/

/-- C3, counterexample.  `detect("Tokyo-Premium")` returns the empty region,
not JP (the keyword table has the localized "东京" but no "tokyo"), and
`detect("generic-node")` does not return the empty region (its lowercased
name contains the keywords "no" → Norway and "de" → Germany). -/
theorem detectRegion_examples_counterexample :
    DetectRegionPossible "Tokyo-Premium" ⟨"", "", ""⟩ ∧
    ¬ DetectRegionPossible "Tokyo-Premium" infoJP ∧
    ¬ DetectRegionPossible "generic-node" ⟨"", "", ""⟩ ∧
    DetectRegionPossible "generic-node" infoNO := by
  refine ⟨by decide, by decide, by decide, by decide⟩

/-- C3, amended.  `detect("🇯🇵 Node-01")` returns JP (the flag matches);
`detect("Tokyo-Premium")` returns the empty region (no flag or keyword
matches); `detect("generic-node")` returns Germany or Norway (keywords "de"
and "no" both match, the winner being the unspecified map iteration
order). -/
theorem detectRegion_examples (info : RegionInfo) :
    (DetectRegionPossible "🇯🇵 Node-01" info → info = infoJP) ∧
    (DetectRegionPossible "Tokyo-Premium" info → info = ⟨"", "", ""⟩) ∧
    (DetectRegionPossible "generic-node" info →
       info = infoDE ∨ info = infoNO) := by
  have h1 : flagMatches "🇯🇵 Node-01" = [infoJP] := by decide
  have h2 : flagMatches "Tokyo-Premium" = [] := by decide
  have h3 : keywordMatches "Tokyo-Premium" = [] := by decide
  have h4 : flagMatches "generic-node" = [] := by decide
  have h5 : keywordMatches "generic-node" = [infoDE, infoNO] := by decide
  refine ⟨?_, ?_, ?_⟩ <;> intro h
  · unfold DetectRegionPossible at h
    rw [if_neg (show ¬ ("🇯🇵 Node-01" = "") by decide), h1] at h
    simpa using h
  · unfold DetectRegionPossible at h
    rw [if_neg (show ¬ ("Tokyo-Premium" = "") by decide), h2, h3] at h
    simpa using h
  · unfold DetectRegionPossible at h
    rw [if_neg (show ¬ ("generic-node" = "") by decide), h4, h5] at h
    simpa using h

/-- Witness for C3 (amended): Norway is a possible result for
"generic-node". -/
theorem detectRegion_examples_witness :
    DetectRegionPossible "generic-node" infoNO ∧
    (infoNO = infoDE ∨ infoNO = infoNO) :=
  ⟨by decide, (detectRegion_examples infoNO).2.2 (by decide)⟩

end EasyProxies
